import Mathlib

/-!
Shallow embedding of `dnf/modulemd_profile.py`: installation profiles for
modules, their total ordering by (split version, release), the
latest-by-name reduction, and the document (de)serialization
(`dumpd` / `loadd`) of `DefaultProfiles`, `ModuleDefaults` and
`InstallationProfile`.

Modelling conventions:
* Python `int(s)` on a string is `pyInt?` (optional sign, then digits);
  raising becomes `Option`.
* Python sets of strings are lists kept duplicate-free by the operations
  that build them (`set(...)` becomes `List.dedup`, `sorted(...)` becomes
  an insertion sort on the code-point order, matching Python's string
  order).
* Python dicts are association lists with insertion-order semantics:
  assignment to an existing key replaces the value in place, a new key is
  appended (`dictInsert`); lookup finds the unique entry (`dictFind?`).
* An attribute that a constructor leaves unassigned (`ModuleDefaults`
  never sets `self.default` in `__init__`) is an `Option` field holding
  `none`; reading it through `dumpd` then fails, like the Python
  `AttributeError`.
* `release` is modelled as an integer (`loadd` coerces it with `int()`).
* Raised exceptions (`ValueError` on comparing different names, `int()`
  parse failures, the `assert` in `ModuleDefaults.dumpd`) are `none`
  results.
-/

namespace ModulemdProfile

/-- The value of a run of decimal digits. -/
def digitsVal (cs : List Char) : Nat :=
  cs.foldl (fun n c => n * 10 + (c.toNat - '0'.toNat)) 0

/-- Parse a non-empty all-digit run, `none` otherwise. -/
def parseDigits (cs : List Char) : Option Nat :=
  if !cs.isEmpty && cs.all (fun c => c.isDigit) then some (digitsVal cs)
  else none

/-- Python `int(s)` for a string: an optional `+`/`-` sign followed by a
non-empty run of digits; anything else raises (here: `none`). -/
def pyInt? (s : String) : Option Int :=
  match s.data with
  | [] => none
  | c :: cs =>
    if c = '-' then (parseDigits cs).map (fun n => -(n : Int))
    else if c = '+' then (parseDigits cs).map (fun n => (n : Int))
    else (parseDigits (c :: cs)).map (fun n => (n : Int))

/-- Split a character list on `'.'` (Python `v.split(".")` semantics: the
empty string yields one empty component, consecutive dots yield empty
components). -/
def splitDot : List Char → List (List Char)
  | [] => [[]]
  | c :: cs =>
    if c = '.' then [] :: splitDot cs
    else
      match splitDot cs with
      | [] => [[c]]
      | g :: gs => (c :: g) :: gs

/-- Python `v.split(".")` on a string. -/
def pySplitDot (v : String) : List String :=
  (splitDot v.data).map (fun cs => String.mk cs)

/-- The raising list comprehension `[int(i) for i in components]`:
convert every component, aborting on the first non-integer one. -/
def mapPyInt : List String → Option (List Int)
  | [] => some []
  | c :: cs =>
    match pyInt? c, mapPyInt cs with
    | some n, some ns => some (n :: ns)
    | _, _ => none

/-- `[int(i) for i in v.split(".")]` — the parsed version components, or
`none` when some component is not an integer literal. -/
def splitVersionStr (v : String) : Option (List Int) :=
  mapPyInt (pySplitDot v)

/-- Python list comparison `<` on integer lists: element-wise, first
difference decides, a strict prefix is lesser. -/
def listLt : List Int → List Int → Bool
  | [], [] => false
  | [], _ :: _ => true
  | _ :: _, [] => false
  | x :: xs, y :: ys =>
    if x < y then true
    else if y < x then false
    else listLt xs ys

/-- Lexicographic `≤` on character lists (Python's string order: code
points, shorter prefix first). -/
def charsLe : List Char → List Char → Bool
  | [], _ => true
  | _ :: _, [] => false
  | a :: as, b :: bs =>
    if a < b then true
    else if b < a then false
    else charsLe as bs

/-- Python's `≤` on strings. -/
def strLe (a b : String) : Bool :=
  charsLe a.data b.data

/-- Insert into a list sorted by code-point order (helper for `sorted`). -/
def insertSorted (x : String) : List String → List String
  | [] => [x]
  | y :: ys => if strLe x y then x :: y :: ys else y :: insertSorted x ys

/-- Python `sorted` on a list of strings (insertion sort; Python sorts
strings by code points, which is Lean's `String` order). -/
def sortStrings : List String → List String
  | [] => []
  | x :: xs => insertSorted x (sortStrings xs)

/-- Python `sorted(set(l))`. -/
def pySortedSet (l : List String) : List String :=
  sortStrings l.dedup

/-- Key membership in an insertion-ordered association list. -/
def hasKey {α β : Type} [DecidableEq α] (k : α) : List (α × β) → Bool
  | [] => false
  | p :: ps => decide (p.1 = k) || hasKey k ps

/-- Python dict assignment `d[k] = v` on an insertion-ordered association
list: replace in place when the key is present, append otherwise. -/
def dictInsert {α β : Type} [DecidableEq α] (d : List (α × β)) (k : α) (v : β) :
    List (α × β) :=
  if hasKey k d then d.map (fun p => if p.1 = k then (k, v) else p)
  else d ++ [(k, v)]

/-- Python dict lookup `d.get(k)`: the value of the unique entry holding
the key. -/
def dictFind? {α β : Type} [DecidableEq α] (k : α) : List (α × β) → Option β
  | [] => none
  | p :: ps => if p.1 = k then some p.2 else dictFind? k ps

/-- `DefaultProfiles`: a dict from stream name to the set of default
profile names for that stream. -/
abbrev DefaultProfiles : Type := List (String × List String)

/-- `DefaultProfiles.add`: `self.setdefault(stream, set()).add(profile)`. -/
def DefaultProfiles.add (d : DefaultProfiles) (stream profile : String) :
    DefaultProfiles :=
  match dictFind? stream d with
  | some ps => dictInsert d stream (if profile ∈ ps then ps else ps ++ [profile])
  | none => dictInsert d stream [profile]

/-- `DefaultProfiles.set`: `None` pops the stream entry, otherwise the
entry becomes `set(profiles)`. -/
def DefaultProfiles.set (d : DefaultProfiles) (stream : String)
    (profiles : Option (List String)) : DefaultProfiles :=
  match profiles with
  | none => d.filter (fun p => decide (p.1 ≠ stream))
  | some ps => dictInsert d stream ps.dedup

/-- `DefaultProfiles.dumpd`: every set of profile names is exported as a
sorted list, keys unchanged. -/
def DefaultProfiles.dumpd (d : DefaultProfiles) : List (String × List String) :=
  d.map (fun p => (p.1, sortStrings p.2))

/-- `DefaultProfiles.loadd`: clear, then `self[key] = set(value)` for each
entry of the input document. -/
def DefaultProfiles.loadd (input : List (String × List String)) : DefaultProfiles :=
  input.foldl (fun acc kv => dictInsert acc kv.1 kv.2.dedup) []

/-- The per-module block of a profile document (the value under a module
name inside `modules`): `available-streams`, `default`, `default-stream`,
`default-profiles`. -/
structure ModuleData where
  available_streams : List String
  default : Bool
  default_stream : String
  default_profiles : List (String × List String)
  deriving DecidableEq

/-- `ModuleDefaults`: one module's selection state. `module_name` and
`default_stream` start as `None`; the `default` flag is not
assigned by `__init__` at all, which is modelled by an `Option Bool` that
starts as `none`. -/
structure ModuleDefaults where
  module_name : Option String
  available_streams : List String
  default_stream : Option String
  default_profiles : DefaultProfiles
  default : Option Bool
  deriving DecidableEq

/-- `ModuleDefaults.__init__`. -/
def ModuleDefaults.init : ModuleDefaults :=
  ⟨none, [], none, [], none⟩

/-- The `assert self.default_stream and self.default_stream in
self.available_streams` condition of `ModuleDefaults.dumpd`: the default
stream is present, non-empty (truthy) and one of the available streams. -/
def ModuleDefaults.streamOk (m : ModuleDefaults) : Bool :=
  match m.default_stream with
  | none => false
  | some s => (s != "") && m.available_streams.contains s

/-- `ModuleDefaults.dumpd`: asserts `streamOk`, then reads the (possibly
unassigned) `default` flag, and produces the single `(module_name, data)`
entry with sorted, de-duplicated streams and sorted profile lists. -/
def ModuleDefaults.dumpd (m : ModuleDefaults) :
    Option (Option String × ModuleData) :=
  match m.default_stream with
  | none => none
  | some s =>
    if (s != "") && m.available_streams.contains s then
      match m.default with
      | some b =>
        some (m.module_name,
          ⟨pySortedSet m.available_streams, b, s, m.default_profiles.dumpd⟩)
      | none => none
    else none

/-- `ModuleDefaults.loadd name data`: rebuilds every field from the
document block; the default stream is stored verbatim, with no membership
check against the available streams. -/
def ModuleDefaults.loadd (name : Option String) (data : ModuleData) :
    ModuleDefaults :=
  ⟨name, pySortedSet data.available_streams, some data.default_stream,
    DefaultProfiles.loadd data.default_profiles, some data.default⟩

/-- The `data` block of a profile document. -/
structure ProfileData where
  name : String
  version : String
  release : Int
  arch : String
  description : String
  modules : List (Option String × ModuleData)
  deriving DecidableEq

/-- A whole profile document: the constant header (`document`,
format `version`) and the `data` block. -/
structure ProfileDoc where
  document : String
  formatVersion : Int
  data : ProfileData
  deriving DecidableEq

/-- `InstallationProfile`: the N-V-R-identified root object. The dict part
of the Python class (module name → `ModuleDefaults`) is the `modules`
field; the named attributes are the scalar fields. -/
structure InstallationProfile where
  name : String
  version : String
  release : Int
  arch : String
  description : String
  modules : List (Option String × ModuleDefaults)
  deriving DecidableEq

namespace InstallationProfile

/-- `split_version` property: `[int(i) for i in self.version.split(".")]`. -/
def split_version (p : InstallationProfile) : Option (List Int) :=
  splitVersionStr p.version

/-- `id` property: `"{name}-{version}-{release}.{arch}"`. -/
def id (p : InstallationProfile) : String :=
  p.name ++ "-" ++ p.version ++ "-" ++ toString p.release ++ "." ++ p.arch

/-- `file_name` property: `"{id}.modulemd.profile.yaml"`. -/
def file_name (p : InstallationProfile) : String :=
  p.id ++ ".modulemd.profile.yaml"

/-- `__eq__`: raises (`none`) on different names, otherwise compares the
`version` strings and the releases directly. -/
def eqOp (a b : InstallationProfile) : Option Bool :=
  if a.name = b.name then
    some ((a.version == b.version) && (a.release == b.release))
  else none

/-- `__lt__`: raises (`none`) on different names or unparsable versions;
otherwise compares `split_version` lists, then the releases. The source
repeats the `int(self.release) < int(other.release)` test on its
would-be "greater" branch and finally returns the falsy integer `0`, so
the overall boolean value is `release <` when the versions tie. -/
def ltOp (a b : InstallationProfile) : Option Bool :=
  if a.name = b.name then do
    let va ← a.split_version
    let vb ← b.split_version
    if listLt va vb then pure true
    else if listLt vb va then pure false
    else if a.release < b.release then pure true
    else if a.release < b.release then pure false
    else pure false
  else none

/-- `__gt__` as derived by `functools.total_ordering` from `__lt__` and
`__eq__`: `not (a < b) and a != b`, with short-circuiting. -/
def gtOp (a b : InstallationProfile) : Option Bool := do
  let l ← ltOp a b
  if l then pure false
  else do
    let e ← eqOp a b
    pure (!e)

end InstallationProfile

/-- Python `max` over a non-empty list (first element, then the rest):
keeps the current maximum and replaces it when `item > current`. -/
def pyMax (x : InstallationProfile) :
    List InstallationProfile → Option InstallationProfile
  | [] => some x
  | y :: ys => do
    let g ← InstallationProfile.gtOp y x
    if g then pyMax y ys else pyMax x ys

/-- The grouping loop of `latest_by_name`:
`result.setdefault(p.name, []).append(p)`. -/
def addToGroup (acc : List (String × List InstallationProfile))
    (p : InstallationProfile) : List (String × List InstallationProfile) :=
  if acc.any (fun g => decide (g.1 = p.name)) then
    acc.map (fun g => if g.1 = p.name then (g.1, g.2 ++ [p]) else g)
  else acc ++ [(p.name, [p])]

/-- `latest_by_name`: group the profiles by name (insertion order), then
replace each group by its `max` under the profile ordering. -/
def latest_by_name (lst : List InstallationProfile) :
    Option (List (String × InstallationProfile)) :=
  (lst.foldl addToGroup []).mapM (fun g =>
    match g.2 with
    | [] => none
    | x :: xs => (pyMax x xs).map (fun m => (g.1, m)))

/-- The module-serialization loop of `InstallationProfile.dumpd`, with
the accumulator explicit: `data["modules"].update(value.dumpd())` for
every owned `ModuleDefaults`; the first failing `dumpd` aborts. -/
def dumpModulesFrom :
    List (Option String × ModuleData) → List (Option String × ModuleDefaults) →
      Option (List (Option String × ModuleData))
  | acc, [] => some acc
  | acc, km :: rest =>
    match km.2.dumpd with
    | some kd => dumpModulesFrom (dictInsert acc kd.1 kd.2) rest
    | none => none

/-- The module-serialization loop started from `data["modules"] = {}`. -/
def dumpModules (ms : List (Option String × ModuleDefaults)) :
    Option (List (Option String × ModuleData)) :=
  dumpModulesFrom [] ms

/-- `InstallationProfile.dumpd`: the document header plus the data block
with the scalar fields and the merged module mapping. -/
def InstallationProfile.dumpd (p : InstallationProfile) : Option ProfileDoc :=
  (dumpModules p.modules).map (fun mods =>
    ⟨"modulemd-profile", 0,
      ⟨p.name, p.version, p.release, p.arch, p.description, mods⟩⟩)

/-- `InstallationProfile.add_module_defaults`:
`self[module_defaults.module_name] = module_defaults`. -/
def InstallationProfile.add_module_defaults (p : InstallationProfile)
    (m : ModuleDefaults) : InstallationProfile :=
  { p with modules := dictInsert p.modules m.module_name m }

/-- `InstallationProfile.loadd`: overwrite the scalar fields from the
`data` block, then construct-and-load a `ModuleDefaults` for every entry
of `modules` and upsert it (the existing module entries are not
cleared). A loaded `ModuleDefaults` has `module_name` equal to its
document key, so the upsert key is the document key. -/
def InstallationProfile.loadd (p : InstallationProfile) (doc : ProfileDoc) :
    InstallationProfile :=
  { name := doc.data.name, version := doc.data.version,
    release := doc.data.release, arch := doc.data.arch,
    description := doc.data.description,
    modules := doc.data.modules.foldl (fun acc km =>
      dictInsert acc km.1 (ModuleDefaults.loadd km.1 km.2)) p.modules }

/-- The fresh `InstallationProfile()` a whole-document deserialization
starts from (as in `loads_all`): no modules; the scalar fields are
initialized to `None` in Python and immediately overwritten by `loadd`,
so placeholders stand in for them here. -/
def freshProfile : InstallationProfile :=
  ⟨"", "", 0, "", "", []⟩

/-- The module-data block `ModuleDefaults.dumpd` produces on its happy
path; `dumpd` returns exactly this value whenever its assert passes and
the `default` flag has been assigned. -/
def mdData (m : ModuleDefaults) : ModuleData :=
  ⟨pySortedSet m.available_streams, m.default.getD false,
    m.default_stream.getD "", m.default_profiles.dumpd⟩

/-- A module entry as `add_module_defaults` creates it and as `dumpd`
requires it: keyed by its own module name, with the default-stream assert
passing, the `default` flag assigned, and duplicate-free stream keys in
its default-profile dict (a Python dict invariant). -/
abbrev ValidModule (k : Option String) (m : ModuleDefaults) : Prop :=
  m.module_name = k ∧ m.streamOk = true ∧ m.default ≠ none ∧
    (m.default_profiles.map Prod.fst).Nodup

/-- A profile whose module dict satisfies the Python dict invariant
(duplicate-free keys) and whose module entries are all valid. -/
abbrev ValidProfile (p : InstallationProfile) : Prop :=
  (p.modules.map Prod.fst).Nodup ∧ ∀ km ∈ p.modules, ValidModule km.1 km.2

/-- Round-trip correspondence for one module selection: identical module
name, default flag and default stream; set-equal available streams; and a
default-profile dict defined on the same streams with set-equal profile
sets. -/
def ModuleMatch (m q : ModuleDefaults) : Prop :=
  q.module_name = m.module_name ∧
  (∀ s, s ∈ q.available_streams ↔ s ∈ m.available_streams) ∧
  q.default = m.default ∧
  q.default_stream = m.default_stream ∧
  (∀ st, (dictFind? st q.default_profiles).isSome
      = (dictFind? st m.default_profiles).isSome) ∧
  (∀ st ps qs, dictFind? st m.default_profiles = some ps →
      dictFind? st q.default_profiles = some qs → (∀ x, x ∈ qs ↔ x ∈ ps))

/-- A version string is canonically written when it is the dot-joined
decimal rendering of its own parsed components — "26.1" is canonical,
"026" (leading zero) and "+2" (sign) are not. -/
def canonVersion (v : String) : Bool :=
  match splitVersionStr v with
  | some l => v == String.intercalate "." (l.map (fun i => toString i))
  | none => false

/-- A "fedora-server" profile with the given version and release (the
spec's latest-selection example). -/
def fsProfile (v : String) (r : Int) : InstallationProfile :=
  ⟨"fedora-server", v, r, "x86_64", "", []⟩

/-!
### Helper lemmas: the list order, dict operations, sorted sets
-/

theorem listLt_irrefl (l : List Int) : listLt l l = false := by
  induction l with
  | nil => rfl
  | cons x xs ih => simp [listLt, ih]

theorem listLt_asymm : ∀ (a b : List Int), listLt a b = true → listLt b a = false
  | [], [] => by simp [listLt]
  | [], _ :: _ => by simp [listLt]
  | _ :: _, [] => by simp [listLt]
  | x :: xs, y :: ys => by
    intro h
    by_cases hxy : x < y
    · have hyx : ¬ y < x := by omega
      simp [listLt, hxy, hyx]
    · by_cases hyx : y < x
      · simp [listLt, hxy, hyx] at h
      · simp [listLt, hxy, hyx] at h ⊢
        exact listLt_asymm xs ys h

theorem listLt_eq_of_both_false : ∀ (a b : List Int),
    listLt a b = false → listLt b a = false → a = b
  | [], [] => by intro _ _; rfl
  | [], _ :: _ => by intro h _; simp [listLt] at h
  | _ :: _, [] => by intro _ h; simp [listLt] at h
  | x :: xs, y :: ys => by
    intro h1 h2
    by_cases hxy : x < y
    · simp [listLt, hxy] at h1
    · by_cases hyx : y < x
      · simp [listLt, hyx] at h2
      · have hx : x = y := by omega
        simp [listLt, hxy, hyx] at h1 h2
        rw [hx, listLt_eq_of_both_false xs ys h1 h2]

theorem mem_insertSorted (x a : String) (l : List String) :
    x ∈ insertSorted a l ↔ x = a ∨ x ∈ l := by
  induction l with
  | nil => simp [insertSorted]
  | cons y ys ih =>
    by_cases h : strLe a y
    · simp [insertSorted, h]
    · simp [insertSorted, h, ih]
      tauto

theorem mem_sortStrings (x : String) (l : List String) :
    x ∈ sortStrings l ↔ x ∈ l := by
  induction l with
  | nil => simp [sortStrings]
  | cons y ys ih => simp [sortStrings, mem_insertSorted, ih]

theorem mem_pySortedSet (x : String) (l : List String) :
    x ∈ pySortedSet l ↔ x ∈ l := by
  simp [pySortedSet, mem_sortStrings]

theorem dictFind?_insert_self {α β : Type} [DecidableEq α] (k : α) (v : β) :
    ∀ d : List (α × β), dictFind? k (dictInsert d k v) = some v
  | [] => by simp [dictInsert, hasKey, dictFind?]
  | p :: ps => by
    by_cases hp : p.1 = k
    · have h1 : hasKey k (p :: ps) = true := by simp [hasKey, hp]
      simp [dictInsert, h1, dictFind?, hp]
    · by_cases hk : hasKey k ps
      · have h1 : hasKey k (p :: ps) = true := by simp [hasKey, hp, hk]
        have ih := dictFind?_insert_self k v ps
        simp [dictInsert, hk] at ih
        simp [dictInsert, h1, dictFind?, hp, ih]
      · have h1 : hasKey k (p :: ps) = false := by simp [hasKey, hp, hk]
        have ih := dictFind?_insert_self k v ps
        simp [dictInsert, hk] at ih
        simp [dictInsert, h1, dictFind?, hp, ih]

theorem dictFind?_mapReplace_ne {α β : Type} [DecidableEq α] (k q : α) (v : β)
    (hq : q ≠ k) :
    ∀ d : List (α × β),
      dictFind? k (d.map (fun p => if p.1 = q then (q, v) else p)) = dictFind? k d
  | [] => rfl
  | p :: ps => by
    by_cases hpq : p.1 = q
    · have hpk : p.1 ≠ k := by rw [hpq]; exact hq
      simp [dictFind?, hpq, hpk, hq, dictFind?_mapReplace_ne k q v hq ps]
    · by_cases hpk : p.1 = k
      · simp [dictFind?, hpq, hpk, Ne.symm hq]
      · simp [dictFind?, hpq, hpk, dictFind?_mapReplace_ne k q v hq ps]

theorem dictFind?_append_none {α β : Type} [DecidableEq α] (k : α)
    (e : List (α × β)) :
    ∀ d : List (α × β), dictFind? k d = none → dictFind? k (d ++ e) = dictFind? k e
  | [] => by intro _; rfl
  | p :: ps => by
    intro h
    by_cases hp : p.1 = k
    · simp [dictFind?, hp] at h
    · simp [dictFind?, hp] at h ⊢
      exact dictFind?_append_none k e ps h

theorem dictFind?_append_some {α β : Type} [DecidableEq α] (k : α) (v : β)
    (e : List (α × β)) :
    ∀ d : List (α × β), dictFind? k d = some v → dictFind? k (d ++ e) = some v
  | [] => by intro h; simp [dictFind?] at h
  | p :: ps => by
    intro h
    by_cases hp : p.1 = k
    · simp [dictFind?, hp] at h ⊢
      exact h
    · simp [dictFind?, hp] at h ⊢
      exact dictFind?_append_some k v e ps h

theorem dictFind?_insert_ne {α β : Type} [DecidableEq α] (k q : α) (v : β)
    (hq : q ≠ k) (d : List (α × β)) :
    dictFind? k (dictInsert d q v) = dictFind? k d := by
  unfold dictInsert
  by_cases hk : hasKey q d
  · simp [hk]
    exact dictFind?_mapReplace_ne k q v hq d
  · simp [hk]
    cases hfd : dictFind? k d with
    | some w =>
      exact dictFind?_append_some k w [(q, v)] d hfd
    | none =>
      rw [dictFind?_append_none k [(q, v)] d hfd]
      simp [dictFind?, hq]

theorem mem_of_dictFind? {α β : Type} [DecidableEq α] (k : α) (v : β) :
    ∀ d : List (α × β), dictFind? k d = some v → (k, v) ∈ d
  | [] => by simp [dictFind?]
  | (a, b) :: ps => by
    intro h
    by_cases hp : a = k
    · simp [dictFind?, hp] at h
      simp [hp, h]
    · simp [dictFind?, hp] at h
      exact List.mem_cons_of_mem _ (mem_of_dictFind? k v ps h)

theorem dictFind?_filter_ne {α β : Type} [DecidableEq α] (k : α) :
    ∀ d : List (α × β),
      dictFind? k (d.filter (fun p => decide (p.1 ≠ k))) = none
  | [] => rfl
  | p :: ps => by
    have ih := dictFind?_filter_ne k ps
    by_cases hp : p.1 = k
    · simp [List.filter_cons, hp, dictFind?] at ih ⊢
      exact ih
    · simp [List.filter_cons, hp, dictFind?] at ih ⊢
      exact ih

theorem dictFind?_dumpd (d : DefaultProfiles) (s : String) :
    dictFind? s (DefaultProfiles.dumpd d) = (dictFind? s d).map sortStrings := by
  induction d with
  | nil => rfl
  | cons p ps ih =>
    by_cases hp : p.1 = s
    · simp [DefaultProfiles.dumpd, dictFind?, hp]
    · simp [DefaultProfiles.dumpd, dictFind?, hp] at ih ⊢
      exact ih

theorem eqOp_eval (a b : InstallationProfile) (h : a.name = b.name) :
    InstallationProfile.eqOp a b
      = some ((a.version == b.version) && (a.release == b.release)) := by
  simp [InstallationProfile.eqOp, h]

theorem ltOp_eval (a b : InstallationProfile) (h : a.name = b.name)
    (va vb : List Int) (ha : a.split_version = some va)
    (hb : b.split_version = some vb) :
    InstallationProfile.ltOp a b
      = some (if listLt va vb then true
              else if listLt vb va then false
              else decide (a.release < b.release)) := by
  simp [InstallationProfile.ltOp, h, ha, hb]
  split_ifs <;> simp_all

theorem gtOp_eval (a b : InstallationProfile) (x y : Bool)
    (hl : InstallationProfile.ltOp a b = some x)
    (he : InstallationProfile.eqOp a b = some y) :
    InstallationProfile.gtOp a b = some (if x then false else !y) := by
  cases x <;> simp [InstallationProfile.gtOp, hl, he]

/-!
### Claims
-/

/-- C5: comparing two installation profiles whose names differ raises the
comparison error (`none`) both via `==` and via `<`; neither silently
returns a boolean. -/
theorem c5_name_mismatch_raises (a b : InstallationProfile)
    (h : a.name ≠ b.name) :
    InstallationProfile.eqOp a b = none ∧ InstallationProfile.ltOp a b = none :=
  ⟨by simp [InstallationProfile.eqOp, h], by simp [InstallationProfile.ltOp, h]⟩

/-- Witness for C5 at two concrete profiles named "a" and "b". -/
theorem c5_name_mismatch_raises_witness :
    (InstallationProfile.mk "a" "1" 0 "x" "" []).name
        ≠ (InstallationProfile.mk "b" "1" 0 "x" "" []).name ∧
    (InstallationProfile.eqOp ⟨"a", "1", 0, "x", "", []⟩ ⟨"b", "1", 0, "x", "", []⟩
        = none ∧
     InstallationProfile.ltOp ⟨"a", "1", 0, "x", "", []⟩ ⟨"b", "1", 0, "x", "", []⟩
        = none) :=
  ⟨by decide, c5_name_mismatch_raises _ _ (by decide)⟩

/-- C7: on any default-profile dict, `set(stream, None)` removes the
stream entry entirely, so the canonical export `dumpd` omits that stream
key; `set(stream, [])` stores an explicit empty set, so `dumpd` maps that
stream to the empty list. -/
theorem c7_set_none_removes_set_empty_keeps (d : DefaultProfiles) (s : String) :
    dictFind? s (DefaultProfiles.dumpd (DefaultProfiles.set d s none)) = none ∧
    dictFind? s (DefaultProfiles.dumpd (DefaultProfiles.set d s (some [])))
      = some [] := by
  constructor
  · have h1 : DefaultProfiles.set d s none = d.filter (fun p => decide (p.1 ≠ s)) :=
      rfl
    rw [h1, dictFind?_dumpd, dictFind?_filter_ne]
    rfl
  · have h1 : DefaultProfiles.set d s (some []) = dictInsert d s [] := rfl
    rw [h1, dictFind?_dumpd, dictFind?_insert_self]
    rfl

/-- C10: `__init__` leaves the `default` flag unassigned (`none`), and
`dumpd` of any `ModuleDefaults` whose `default` flag was never assigned
fails — even when the default stream is non-empty and available; the flag
exists only after explicit assignment or `loadd`. -/
theorem c10_unassigned_default_fails (m : ModuleDefaults)
    (h : m.default = none) :
    ModuleDefaults.init.default = none ∧ m.dumpd = none := by
  refine ⟨rfl, ?_⟩
  rcases hds : m.default_stream with _ | s
  · simp [ModuleDefaults.dumpd, hds]
  · simp [ModuleDefaults.dumpd, hds, h]

/-- Witness for C10 at a concrete selection with a valid default stream
but an unassigned `default` flag. -/
theorem c10_unassigned_default_fails_witness :
    (⟨some "mod", ["s1"], some "s1", [], none⟩ : ModuleDefaults).streamOk = true ∧
    (⟨some "mod", ["s1"], some "s1", [], none⟩ : ModuleDefaults).default = none ∧
    (ModuleDefaults.init.default = none ∧
     (⟨some "mod", ["s1"], some "s1", [], none⟩ : ModuleDefaults).dumpd = none) :=
  ⟨by decide, by decide, c10_unassigned_default_fails _ (by decide)⟩

/-- C6 counterexample: a `ModuleDefaults` whose default stream is
non-empty and available (so the claimed failure condition is false) but
whose `default` flag was never assigned still fails to serialize — so
`dumpd` does not fail *exactly* when the default stream is empty, absent
or unavailable. -/
theorem c6_counterexample :
    (⟨some "m", ["s"], some "s", [], none⟩ : ModuleDefaults).streamOk = true ∧
    (⟨some "m", ["s"], some "s", [], none⟩ : ModuleDefaults).dumpd = none := by
  decide

/-- C6 (amended): for a `ModuleDefaults` whose `default` flag has been
assigned, `dumpd` fails exactly when the default stream is empty, absent
or not a member of the available streams; construction and `loadd` never
perform that check — `loadd` stores the document's default stream
verbatim, so an inconsistent selection can be built and loaded but not
serialized. -/
theorem c6_serialize_checks_consistency (m : ModuleDefaults)
    (h : m.default ≠ none) (name : Option String) (data : ModuleData) :
    (m.dumpd = none ↔ m.streamOk = false) ∧
    (ModuleDefaults.loadd name data).default_stream = some data.default_stream := by
  refine ⟨?_, rfl⟩
  rcases hds : m.default_stream with _ | s
  · simp [ModuleDefaults.dumpd, ModuleDefaults.streamOk, hds]
  · rcases hd : m.default with _ | b
    · exact absurd hd h
    · cases hc : (s != "") && m.available_streams.contains s
      · simp [ModuleDefaults.dumpd, ModuleDefaults.streamOk, hds, hd, hc]
      · simp [ModuleDefaults.dumpd, ModuleDefaults.streamOk, hds, hd, hc]

/-- Witness for C6 (amended) at a concrete selection whose assigned
default stream is not among its available streams. -/
theorem c6_serialize_checks_consistency_witness :
    (⟨some "m", ["s"], some "t", [], some true⟩ : ModuleDefaults).default ≠ none ∧
    (((⟨some "m", ["s"], some "t", [], some true⟩ : ModuleDefaults).dumpd = none ↔
      (⟨some "m", ["s"], some "t", [], some true⟩ : ModuleDefaults).streamOk
        = false) ∧
     (ModuleDefaults.loadd (some "m") ⟨["s"], true, "u", []⟩).default_stream
        = some "u") :=
  ⟨by decide, c6_serialize_checks_consistency _ (by decide) _ _⟩

/-- C2: on the three "fedora-server" profiles with (version, release)
pairs ("26",1), ("26",2) and ("26.1",1), `latest_by_name` maps
"fedora-server" to the ("26.1",1) profile; its split version [26,1] is
greater than [26] under Python-style list comparison. -/
theorem c2_latest_selection :
    latest_by_name [fsProfile "26" 1, fsProfile "26" 2, fsProfile "26.1" 1]
        = some [("fedora-server", fsProfile "26.1" 1)] ∧
    (fsProfile "26.1" 1).split_version = some [26, 1] ∧
    (fsProfile "26" 2).split_version = some [26] ∧
    listLt [26] [26, 1] = true := by
  decide

theorem canon_split (v : String) (h : canonVersion v = true) :
    ∃ l, splitVersionStr v = some l ∧
      v = String.intercalate "." (l.map (fun i => toString i)) := by
  rcases hs : splitVersionStr v with _ | l
  · simp [canonVersion, hs] at h
  · simp [canonVersion, hs] at h
    exact ⟨l, rfl, h⟩

theorem version_eq_of_canon (a b : String) (ha : canonVersion a = true)
    (hb : canonVersion b = true) (h : splitVersionStr a = splitVersionStr b) :
    a = b := by
  obtain ⟨la, hsa, hra⟩ := canon_split a ha
  obtain ⟨lb, hsb, hrb⟩ := canon_split b hb
  rw [hsa, hsb] at h
  injection h with h
  rw [hra, hrb, h]

theorem mapPyInt_eq (l : List String) :
    mapPyInt l = if l.all (fun c => (pyInt? c).isSome)
      then some (l.map (fun c => (pyInt? c).getD 0)) else none := by
  induction l with
  | nil => simp [mapPyInt]
  | cons c cs ih =>
    cases hc : pyInt? c with
    | none => simp [mapPyInt, hc]
    | some n =>
      by_cases hall : cs.all (fun c => (pyInt? c).isSome) = true
      · simp [mapPyInt, hc, ih, hall]
      · simp [mapPyInt, hc, ih, hall]

/-- C1 counterexample: two profiles named "n" with equal releases and the
well-formed (dot-separated numeric) versions "026" and "26": both strict
comparisons and the equality test return False, so none of `a < b`,
`a == b`, `b < a` holds — trichotomy fails as claimed. `__eq__` compares
the version strings while `__lt__` compares the parsed integer lists. -/
theorem c1_counterexample :
    (⟨"n", "026", 0, "x", "", []⟩ : InstallationProfile).split_version
        = some [26] ∧
    (⟨"n", "26", 0, "x", "", []⟩ : InstallationProfile).split_version
        = some [26] ∧
    InstallationProfile.ltOp ⟨"n", "026", 0, "x", "", []⟩
        ⟨"n", "26", 0, "x", "", []⟩ = some false ∧
    InstallationProfile.eqOp ⟨"n", "026", 0, "x", "", []⟩
        ⟨"n", "26", 0, "x", "", []⟩ = some false ∧
    InstallationProfile.ltOp ⟨"n", "26", 0, "x", "", []⟩
        ⟨"n", "026", 0, "x", "", []⟩ = some false := by
  decide

/-- C1 (amended): for profiles sharing a name with well-formed
(dot-separated numeric) versions and integer releases, at most one of
`a < b`, `a == b`, `b < a` holds; exactly one holds under the additional
assumption that both version strings are canonically written (each is the
dot-joined decimal rendering of its own integer components — no leading
zeros or signs). Without canonicity totality can fail, because `__eq__`
compares version strings while `__lt__` compares parsed integer lists
(see the counterexample "026" vs "26"). -/
theorem c1_trichotomy_of_canonical (a b : InstallationProfile)
    (hn : a.name = b.name) (va vb : List Int)
    (ha : a.split_version = some va) (hb : b.split_version = some vb) :
    (¬(InstallationProfile.ltOp a b = some true ∧
       InstallationProfile.eqOp a b = some true) ∧
     ¬(InstallationProfile.ltOp a b = some true ∧
       InstallationProfile.ltOp b a = some true) ∧
     ¬(InstallationProfile.eqOp a b = some true ∧
       InstallationProfile.ltOp b a = some true)) ∧
    (canonVersion a.version = true → canonVersion b.version = true →
      (InstallationProfile.ltOp a b = some true ∨
       InstallationProfile.eqOp a b = some true ∨
       InstallationProfile.ltOp b a = some true)) := by
  have hsa : splitVersionStr a.version = some va := ha
  have hsb : splitVersionStr b.version = some vb := hb
  have hea := eqOp_eval a b hn
  have hlab := ltOp_eval a b hn va vb ha hb
  have hlba := ltOp_eval b a hn.symm vb va hb ha
  by_cases h1 : listLt va vb = true
  · have h2 : listLt vb va = false := listLt_asymm va vb h1
    have hver : (a.version == b.version) = false := by
      simp only [beq_eq_false_iff_ne, ne_eq]
      intro he
      rw [he, hsb] at hsa
      injection hsa with hsa
      rw [hsa, listLt_irrefl] at h1
      cases h1
    rw [hlab, hlba, hea, h1, h2, hver]
    simp
  · by_cases h2 : listLt vb va = true
    · have h1f : listLt va vb = false := listLt_asymm vb va h2
      have hver : (a.version == b.version) = false := by
        simp only [beq_eq_false_iff_ne, ne_eq]
        intro he
        rw [he, hsb] at hsa
        injection hsa with hsa
        rw [hsa, listLt_irrefl] at h2
        cases h2
      rw [hlab, hlba, hea, h1f, h2, hver]
      simp
    · have h1f : listLt va vb = false := by
        cases h : listLt va vb
        · rfl
        · exact absurd h h1
      have h2f : listLt vb va = false := by
        cases h : listLt vb va
        · rfl
        · exact absurd h h2
      have hll : va = vb := listLt_eq_of_both_false va vb h1f h2f
      rw [hlab, hlba, hea, h1f, h2f]
      constructor
      · refine ⟨?_, ?_, ?_⟩
        · rintro ⟨hl, he2⟩
          simp [beq_iff_eq] at hl he2
          obtain ⟨-, he3⟩ := he2
          omega
        · rintro ⟨hl, hl2⟩
          simp at hl hl2
          omega
        · rintro ⟨he2, hl2⟩
          simp [beq_iff_eq] at he2 hl2
          obtain ⟨-, he3⟩ := he2
          omega
      · intro hca hcb
        have hver : a.version = b.version := by
          apply version_eq_of_canon _ _ hca hcb
          rw [hsa, hsb, hll]
        simp [hver, beq_iff_eq]
        omega

/-- Witness for C1 (amended) at versions "1" and "1.2". -/
theorem c1_trichotomy_of_canonical_witness :
    (⟨"n", "1", 0, "x", "", []⟩ : InstallationProfile).name
        = (⟨"n", "1.2", 3, "x", "", []⟩ : InstallationProfile).name ∧
    (⟨"n", "1", 0, "x", "", []⟩ : InstallationProfile).split_version
        = some [1] ∧
    (⟨"n", "1.2", 3, "x", "", []⟩ : InstallationProfile).split_version
        = some [1, 2] ∧
    ((¬(InstallationProfile.ltOp ⟨"n", "1", 0, "x", "", []⟩
          ⟨"n", "1.2", 3, "x", "", []⟩ = some true ∧
        InstallationProfile.eqOp ⟨"n", "1", 0, "x", "", []⟩
          ⟨"n", "1.2", 3, "x", "", []⟩ = some true) ∧
      ¬(InstallationProfile.ltOp ⟨"n", "1", 0, "x", "", []⟩
          ⟨"n", "1.2", 3, "x", "", []⟩ = some true ∧
        InstallationProfile.ltOp ⟨"n", "1.2", 3, "x", "", []⟩
          ⟨"n", "1", 0, "x", "", []⟩ = some true) ∧
      ¬(InstallationProfile.eqOp ⟨"n", "1", 0, "x", "", []⟩
          ⟨"n", "1.2", 3, "x", "", []⟩ = some true ∧
        InstallationProfile.ltOp ⟨"n", "1.2", 3, "x", "", []⟩
          ⟨"n", "1", 0, "x", "", []⟩ = some true)) ∧
     (canonVersion (⟨"n", "1", 0, "x", "", []⟩ : InstallationProfile).version
          = true →
      canonVersion (⟨"n", "1.2", 3, "x", "", []⟩ : InstallationProfile).version
          = true →
      (InstallationProfile.ltOp ⟨"n", "1", 0, "x", "", []⟩
          ⟨"n", "1.2", 3, "x", "", []⟩ = some true ∨
       InstallationProfile.eqOp ⟨"n", "1", 0, "x", "", []⟩
          ⟨"n", "1.2", 3, "x", "", []⟩ = some true ∨
       InstallationProfile.ltOp ⟨"n", "1.2", 3, "x", "", []⟩
          ⟨"n", "1", 0, "x", "", []⟩ = some true))) :=
  ⟨rfl, by decide, by decide,
    c1_trichotomy_of_canonical _ _ rfl [1] [1, 2] (by decide) (by decide)⟩

/-- C4: for same-named profiles with equal split versions and unequal
releases, `a < b` holds iff `b > a` holds — the release tie-break is
symmetric under the `>` that `total_ordering` derives from `__lt__` and
`__eq__`. -/
theorem c4_release_tie_symmetric (a b : InstallationProfile)
    (hn : a.name = b.name) (v : List Int)
    (ha : a.split_version = some v) (hb : b.split_version = some v)
    (hr : a.release ≠ b.release) :
    (InstallationProfile.ltOp a b = some true ↔
     InstallationProfile.gtOp b a = some true) := by
  have hlab := ltOp_eval a b hn v v ha hb
  have hlba := ltOp_eval b a hn.symm v v hb ha
  have heba := eqOp_eval b a hn.symm
  rw [listLt_irrefl] at hlab hlba
  simp only [Bool.false_eq_true, if_false] at hlab hlba
  have hgba := gtOp_eval b a (decide (b.release < a.release))
    ((b.version == a.version) && (b.release == a.release)) hlba heba
  rw [hlab, hgba]
  by_cases hba : b.release < a.release
  · have h1 : ¬ a.release < b.release := by omega
    simp [hba, h1]
  · have h2 : (b.release == a.release) = false := by
      simp only [beq_eq_false_iff_ne, ne_eq]
      omega
    have h3 : a.release < b.release := by omega
    simp [hba, h2, h3]

/-- Witness for C4 at releases 1 and 2 of version "7". -/
theorem c4_release_tie_symmetric_witness :
    (⟨"n", "7", 1, "x", "", []⟩ : InstallationProfile).name
        = (⟨"n", "7", 2, "x", "", []⟩ : InstallationProfile).name ∧
    (⟨"n", "7", 1, "x", "", []⟩ : InstallationProfile).split_version
        = some [7] ∧
    (⟨"n", "7", 2, "x", "", []⟩ : InstallationProfile).split_version
        = some [7] ∧
    (⟨"n", "7", 1, "x", "", []⟩ : InstallationProfile).release
        ≠ (⟨"n", "7", 2, "x", "", []⟩ : InstallationProfile).release ∧
    (InstallationProfile.ltOp ⟨"n", "7", 1, "x", "", []⟩
          ⟨"n", "7", 2, "x", "", []⟩ = some true ↔
     InstallationProfile.gtOp ⟨"n", "7", 2, "x", "", []⟩
          ⟨"n", "7", 1, "x", "", []⟩ = some true) :=
  ⟨rfl, by decide, by decide, by decide,
    c4_release_tie_symmetric _ _ rfl [7] (by decide) (by decide) (by decide)⟩

/-- C8: `id` is the pure "{name}-{version}-{release}.{arch}" string,
`file_name` is `id` plus ".modulemd.profile.yaml" (both total — they
mutate nothing and cannot fail), and `split_version` succeeds exactly when
every dot-separated component of `version` is an integer literal, in which
case it returns exactly the converted integers. -/
theorem c8_computed_properties (p : InstallationProfile) :
    p.id = p.name ++ "-" ++ p.version ++ "-" ++ toString p.release
        ++ "." ++ p.arch ∧
    p.file_name = p.id ++ ".modulemd.profile.yaml" ∧
    (p.split_version = none ↔ ∃ c ∈ pySplitDot p.version, pyInt? c = none) ∧
    p.split_version
      = (if (pySplitDot p.version).all (fun c => (pyInt? c).isSome)
         then some ((pySplitDot p.version).map (fun c => (pyInt? c).getD 0))
         else none) := by
  refine ⟨rfl, rfl, ?_, mapPyInt_eq (pySplitDot p.version)⟩
  rw [show p.split_version = mapPyInt (pySplitDot p.version) from rfl]
  rw [mapPyInt_eq]
  by_cases hall : (pySplitDot p.version).all (fun c => (pyInt? c).isSome) = true
  · simp only [hall, if_true]
    constructor
    · intro h
      cases h
    · rintro ⟨c, hc, hnone⟩
      rw [List.all_eq_true] at hall
      have := hall c hc
      rw [hnone] at this
      cases this
  · simp only [hall, if_false]
    constructor
    · intro _
      rw [List.all_eq_true] at hall
      push_neg at hall
      obtain ⟨c, hc, hns⟩ := hall
      refine ⟨c, hc, ?_⟩
      cases hv : pyInt? c
      · rfl
      · rw [hv] at hns
        exact absurd rfl hns
    · intro _
      rfl

theorem dictInsert_append {α β : Type} [DecidableEq α] (d : List (α × β)) (k : α)
    (v : β) (h : ∀ p ∈ d, p.1 ≠ k) : dictInsert d k v = d ++ [(k, v)] := by
  have hk : hasKey k d = false := by
    induction d with
    | nil => rfl
    | cons p ps ih =>
      simp [hasKey, h p (List.mem_cons_self _ _),
        ih (fun q hq => h q (List.mem_cons_of_mem _ hq))]
  simp [dictInsert, hk]

theorem map_fst_pairMap {α β γ : Type} (F : α × β → γ) (l : List (α × β)) :
    (l.map (fun p => (p.1, F p))).map Prod.fst = l.map Prod.fst := by
  induction l with
  | nil => rfl
  | cons p ps ih => simp [ih]

theorem dictFind?_map_pair {α β γ : Type} [DecidableEq α] (F : α × β → γ) (k : α) :
    ∀ d : List (α × β),
      dictFind? k (d.map (fun p => (p.1, F p)))
        = (dictFind? k d).map (fun v => F (k, v))
  | [] => rfl
  | (a, b) :: ps => by
    by_cases hp : a = k
    · simp [dictFind?, hp]
    · simp [dictFind?, hp, dictFind?_map_pair F k ps]

theorem foldl_dictInsert_nodup {α β γ : Type} [DecidableEq α] (F : α × β → γ) :
    ∀ (l : List (α × β)) (acc : List (α × γ)),
      (∀ q ∈ acc, ∀ kv ∈ l, q.1 ≠ kv.1) → (l.map Prod.fst).Nodup →
      l.foldl (fun a kv => dictInsert a kv.1 (F kv)) acc
        = acc ++ l.map (fun kv => (kv.1, F kv))
  | [], acc => by
    intro _ _
    simp
  | kv :: rest, acc => by
    intro hdisj hnd
    rw [List.map_cons, List.nodup_cons] at hnd
    have hdisj2 : ∀ q ∈ acc ++ [(kv.1, F kv)], ∀ kw ∈ rest, q.1 ≠ kw.1 := by
      intro q hq kw hkw
      rcases List.mem_append.mp hq with hq | hq
      · exact hdisj q hq kw (List.mem_cons_of_mem _ hkw)
      · have hq2 : q = (kv.1, F kv) := by simpa using hq
        rw [hq2]
        intro hcontra
        exact hnd.1 (by rw [hcontra]; exact List.mem_map_of_mem Prod.fst hkw)
    rw [List.foldl_cons,
      dictInsert_append acc kv.1 (F kv)
        (fun p hp => hdisj p hp kv (List.mem_cons_self _ _)),
      foldl_dictInsert_nodup F rest (acc ++ [(kv.1, F kv)]) hdisj2 hnd.2]
    simp

theorem dpLoadd_dumpd (d : DefaultProfiles) (hnd : (d.map Prod.fst).Nodup) :
    DefaultProfiles.loadd (DefaultProfiles.dumpd d)
      = d.map (fun kv => (kv.1, (sortStrings kv.2).dedup)) := by
  have hkeys : ((DefaultProfiles.dumpd d).map Prod.fst) = d.map Prod.fst :=
    map_fst_pairMap (fun p => sortStrings p.2) d
  have hfold := foldl_dictInsert_nodup (fun kv : String × List String => kv.2.dedup)
    (DefaultProfiles.dumpd d) []
    (fun q hq => absurd hq (List.not_mem_nil q))
    (by rw [hkeys]; exact hnd)
  rw [show DefaultProfiles.loadd (DefaultProfiles.dumpd d)
      = (DefaultProfiles.dumpd d).foldl
          (fun acc kv => dictInsert acc kv.1 kv.2.dedup) [] from rfl]
  rw [hfold]
  simp [DefaultProfiles.dumpd, List.map_map, Function.comp]

theorem mdDumpd_of_valid (k : Option String) (m : ModuleDefaults)
    (h : ValidModule k m) : m.dumpd = some (k, mdData m) := by
  obtain ⟨hname, hok, hdef, _⟩ := h
  rcases hds : m.default_stream with _ | s
  · simp [ModuleDefaults.streamOk, hds] at hok
  · have hc : ((s != "") && m.available_streams.contains s) = true := by
      simpa [ModuleDefaults.streamOk, hds] using hok
    rcases hd : m.default with _ | b
    · exact absurd hd hdef
    · have hc2 : ¬ s = "" ∧ s ∈ m.available_streams := by simpa using hc
      simp [ModuleDefaults.dumpd, hds, hd, mdData, hname, hc2.1, hc2.2]

theorem moduleMatch_of_valid (k : Option String) (m : ModuleDefaults)
    (h : ValidModule k m) :
    ModuleMatch m (ModuleDefaults.loadd k (mdData m)) := by
  obtain ⟨hname, hok, hdef, hnd⟩ := h
  have hdp : (ModuleDefaults.loadd k (mdData m)).default_profiles
      = m.default_profiles.map (fun kv => (kv.1, (sortStrings kv.2).dedup)) := by
    show DefaultProfiles.loadd (DefaultProfiles.dumpd m.default_profiles) = _
    exact dpLoadd_dumpd m.default_profiles hnd
  refine ⟨?_, ?_, ?_, ?_, ?_, ?_⟩
  · simp [ModuleDefaults.loadd, hname]
  · intro str
    simp [ModuleDefaults.loadd, mdData, mem_pySortedSet]
  · rcases hd : m.default with _ | b
    · exact absurd hd hdef
    · simp [ModuleDefaults.loadd, mdData, hd]
  · rcases hds : m.default_stream with _ | s
    · simp [ModuleDefaults.streamOk, hds] at hok
    · simp [ModuleDefaults.loadd, mdData, hds]
  · intro st
    rw [hdp, dictFind?_map_pair (fun kv => (sortStrings kv.2).dedup) st]
    cases dictFind? st m.default_profiles <;> rfl
  · intro st ps qs hm hq
    rw [hdp, dictFind?_map_pair (fun kv => (sortStrings kv.2).dedup) st, hm] at hq
    injection hq with hq
    intro x
    rw [← hq]
    simp [List.mem_dedup, mem_sortStrings]

theorem dumpModulesFrom_of_valid :
    ∀ (ms : List (Option String × ModuleDefaults))
      (acc : List (Option String × ModuleData)),
      (∀ q ∈ acc, ∀ km ∈ ms, q.1 ≠ km.1) → (ms.map Prod.fst).Nodup →
      (∀ km ∈ ms, ValidModule km.1 km.2) →
      dumpModulesFrom acc ms
        = some (acc ++ ms.map (fun km => (km.1, mdData km.2)))
  | [], acc => by
    intro _ _ _
    simp [dumpModulesFrom]
  | km :: rest, acc => by
    intro hdisj hnd hval
    have hd := mdDumpd_of_valid km.1 km.2 (hval km (List.mem_cons_self _ _))
    rw [List.map_cons, List.nodup_cons] at hnd
    have hdisj2 : ∀ q ∈ acc ++ [(km.1, mdData km.2)], ∀ kw ∈ rest, q.1 ≠ kw.1 := by
      intro q hq kw hkw
      rcases List.mem_append.mp hq with hq | hq
      · exact hdisj q hq kw (List.mem_cons_of_mem _ hkw)
      · have hq2 : q = (km.1, mdData km.2) := by simpa using hq
        rw [hq2]
        intro hcontra
        exact hnd.1 (by rw [hcontra]; exact List.mem_map_of_mem Prod.fst hkw)
    have hval2 : ∀ kw ∈ rest, ValidModule kw.1 kw.2 :=
      fun kw hkw => hval kw (List.mem_cons_of_mem _ hkw)
    simp only [dumpModulesFrom, hd]
    rw [dictInsert_append acc km.1 (mdData km.2)
        (fun p hp => hdisj p hp km (List.mem_cons_self _ _)),
      dumpModulesFrom_of_valid rest (acc ++ [(km.1, mdData km.2)]) hdisj2 hnd.2 hval2]
    simp

theorem dictFind?_foldl_insert_ne {α β γ : Type} [DecidableEq α] (k : α)
    (f : α × γ → β) :
    ∀ (l : List (α × γ)) (acc : List (α × β)), (∀ kv ∈ l, kv.1 ≠ k) →
      dictFind? k (l.foldl (fun a kv => dictInsert a kv.1 (f kv)) acc)
        = dictFind? k acc
  | [], acc => by
    intro _
    rfl
  | kv :: rest, acc => by
    intro h
    rw [List.foldl_cons,
      dictFind?_foldl_insert_ne k f rest _
        (fun x hx => h x (List.mem_cons_of_mem _ hx)),
      dictFind?_insert_ne k kv.1 (f kv) (h kv (List.mem_cons_self _ _)) acc]

/-- C9: whole-document load merges module entries instead of replacing
them: a module entry of the profile whose key the loaded document's
modules block does not mention is still present and unchanged after
`loadd`. -/
theorem c9_loadd_preserves_unmentioned_modules (p : InstallationProfile)
    (doc : ProfileDoc) (k : Option String) (m : ModuleDefaults)
    (h1 : dictFind? k p.modules = some m)
    (h2 : ∀ km ∈ doc.data.modules, km.1 ≠ k) :
    dictFind? k ((p.loadd doc).modules) = some m := by
  rw [show (p.loadd doc).modules
      = doc.data.modules.foldl
          (fun a km => dictInsert a km.1 (ModuleDefaults.loadd km.1 km.2))
          p.modules from rfl]
  rw [dictFind?_foldl_insert_ne k
      (fun km => ModuleDefaults.loadd km.1 km.2) doc.data.modules p.modules h2,
    h1]

/-- Witness for C9: a profile holding module "a" loaded with a document
mentioning only module "b" still holds its entry for "a". -/
theorem c9_loadd_preserves_unmentioned_modules_witness :
    dictFind? (some "a")
        (InstallationProfile.mk "n" "1" 0 "x" ""
          [(some "a", ⟨some "a", ["s"], some "s", [], some true⟩)]).modules
      = some ⟨some "a", ["s"], some "s", [], some true⟩ ∧
    (∀ km ∈ (ProfileDoc.mk "modulemd-profile" 0
        ⟨"n2", "2", 1, "y", "d", [(some "b", ⟨["t"], false, "t", []⟩)]⟩).data.modules,
      km.1 ≠ some "a") ∧
    dictFind? (some "a")
        ((InstallationProfile.loadd
          ⟨"n", "1", 0, "x", "",
            [(some "a", ⟨some "a", ["s"], some "s", [], some true⟩)]⟩
          ⟨"modulemd-profile", 0,
            ⟨"n2", "2", 1, "y", "d", [(some "b", ⟨["t"], false, "t", []⟩)]⟩⟩).modules)
      = some ⟨some "a", ["s"], some "s", [], some true⟩ :=
  ⟨by decide, by decide,
    c9_loadd_preserves_unmentioned_modules _ _ _ _ (by decide) (by decide)⟩

/-- C3: serializing a valid profile succeeds, and deserializing the
produced document into a fresh profile reproduces `id`, `version`,
`release`, `arch` and `description` exactly, keeps the same module names,
and reproduces every module selection up to set equality of its
available streams and per-stream default-profile sets. -/
theorem c3_roundtrip (p : InstallationProfile) (h : ValidProfile p) :
    ∃ doc, p.dumpd = some doc ∧
      (freshProfile.loadd doc).id = p.id ∧
      (freshProfile.loadd doc).version = p.version ∧
      (freshProfile.loadd doc).release = p.release ∧
      (freshProfile.loadd doc).arch = p.arch ∧
      (freshProfile.loadd doc).description = p.description ∧
      (freshProfile.loadd doc).modules.map Prod.fst = p.modules.map Prod.fst ∧
      (∀ k m, dictFind? k p.modules = some m →
        ∃ q, dictFind? k ((freshProfile.loadd doc).modules) = some q ∧
          ModuleMatch m q) := by
  obtain ⟨hnd, hval⟩ := h
  have hdm := dumpModulesFrom_of_valid p.modules []
    (fun q hq => absurd hq (List.not_mem_nil q)) hnd hval
  refine ⟨⟨"modulemd-profile", 0,
    ⟨p.name, p.version, p.release, p.arch, p.description,
      p.modules.map (fun km => (km.1, mdData km.2))⟩⟩, ?_, ?_, rfl, rfl, rfl, rfl,
    ?_, ?_⟩
  · rw [InstallationProfile.dumpd, dumpModules, hdm]
    rfl
  · rfl
  · rw [show (freshProfile.loadd
        ⟨"modulemd-profile", 0,
          ⟨p.name, p.version, p.release, p.arch, p.description,
            p.modules.map (fun km => (km.1, mdData km.2))⟩⟩).modules
      = (p.modules.map (fun km => (km.1, mdData km.2))).foldl
          (fun a km => dictInsert a km.1 (ModuleDefaults.loadd km.1 km.2)) []
      from rfl]
    rw [foldl_dictInsert_nodup
        (fun km => ModuleDefaults.loadd km.1 km.2)
        (p.modules.map (fun km => (km.1, mdData km.2))) []
        (fun q hq => absurd hq (List.not_mem_nil q))
        (by rw [map_fst_pairMap (fun km => mdData km.2) p.modules]; exact hnd)]
    rw [List.nil_append, map_fst_pairMap
        (fun km => ModuleDefaults.loadd km.1 km.2)]
    exact map_fst_pairMap (fun km => mdData km.2) p.modules
  · intro k m hm
    rw [show (freshProfile.loadd
        ⟨"modulemd-profile", 0,
          ⟨p.name, p.version, p.release, p.arch, p.description,
            p.modules.map (fun km => (km.1, mdData km.2))⟩⟩).modules
      = (p.modules.map (fun km => (km.1, mdData km.2))).foldl
          (fun a km => dictInsert a km.1 (ModuleDefaults.loadd km.1 km.2)) []
      from rfl]
    rw [foldl_dictInsert_nodup
        (fun km => ModuleDefaults.loadd km.1 km.2)
        (p.modules.map (fun km => (km.1, mdData km.2))) []
        (fun q hq => absurd hq (List.not_mem_nil q))
        (by rw [map_fst_pairMap (fun km => mdData km.2) p.modules]; exact hnd)]
    rw [List.nil_append, List.map_map]
    have hmap : (p.modules.map
        ((fun kv : Option String × ModuleData =>
            (kv.1, ModuleDefaults.loadd kv.1 kv.2))
          ∘ (fun km : Option String × ModuleDefaults => (km.1, mdData km.2))))
        = p.modules.map
            (fun km => (km.1, ModuleDefaults.loadd km.1 (mdData km.2))) := by
      simp [Function.comp]
    rw [hmap, dictFind?_map_pair
        (fun km => ModuleDefaults.loadd km.1 (mdData km.2)) k p.modules, hm]
    refine ⟨ModuleDefaults.loadd k (mdData m), rfl, ?_⟩
    exact moduleMatch_of_valid k m (hval (k, m) (mem_of_dictFind? k m p.modules hm))

/-- Witness for C3 at a concrete one-module profile. -/
theorem c3_roundtrip_witness :
    ValidProfile
      ⟨"fedora-server", "26", 5, "x86_64", "Fedora 26 Server",
        [(some "base-runtime",
          ⟨some "base-runtime", ["f27", "f26", "f26"], some "f26",
            [("f26", ["container", "buildroot"]), ("f27", [])], some true⟩)]⟩ ∧
    (∃ doc,
      (InstallationProfile.mk "fedora-server" "26" 5 "x86_64" "Fedora 26 Server"
        [(some "base-runtime",
          ⟨some "base-runtime", ["f27", "f26", "f26"], some "f26",
            [("f26", ["container", "buildroot"]), ("f27", [])], some true⟩)]).dumpd
        = some doc ∧
      (freshProfile.loadd doc).id
        = (InstallationProfile.mk "fedora-server" "26" 5 "x86_64"
            "Fedora 26 Server"
            [(some "base-runtime",
              ⟨some "base-runtime", ["f27", "f26", "f26"], some "f26",
                [("f26", ["container", "buildroot"]), ("f27", [])],
                some true⟩)]).id ∧
      (freshProfile.loadd doc).version = "26" ∧
      (freshProfile.loadd doc).release = 5 ∧
      (freshProfile.loadd doc).arch = "x86_64" ∧
      (freshProfile.loadd doc).description = "Fedora 26 Server" ∧
      (freshProfile.loadd doc).modules.map Prod.fst
        = (InstallationProfile.mk "fedora-server" "26" 5 "x86_64"
            "Fedora 26 Server"
            [(some "base-runtime",
              ⟨some "base-runtime", ["f27", "f26", "f26"], some "f26",
                [("f26", ["container", "buildroot"]), ("f27", [])],
                some true⟩)]).modules.map Prod.fst ∧
      (∀ k m,
        dictFind? k
          (InstallationProfile.mk "fedora-server" "26" 5 "x86_64"
            "Fedora 26 Server"
            [(some "base-runtime",
              ⟨some "base-runtime", ["f27", "f26", "f26"], some "f26",
                [("f26", ["container", "buildroot"]), ("f27", [])],
                some true⟩)]).modules = some m →
        ∃ q, dictFind? k ((freshProfile.loadd doc).modules) = some q ∧
          ModuleMatch m q)) :=
  ⟨by decide, c3_roundtrip _ (by decide)⟩

end ModulemdProfile
